import Mathlib

/- Shallow embedding of alfredo/cli.py: the response projection engine
   (RuoteCommand.pluck / pluck_list / pluck_dict / pluck_dict_dot,
   lines 235-262) and the path resolver (RuoteCommand.get_target,
   lines 205-221). -/

/-- Decoded JSON/YAML response values: scalars, sequences, and
insertion-ordered mappings. A Python dict is modelled as an association
list; assignment keeps the first position of an existing key and
overwrites its value, matching CPython's ordered dicts. -/
inductive Value where
  | str : String → Value
  | int : Int → Value
  | bool : Bool → Value
  | null : Value
  | list : List Value → Value
  | dict : List (String × Value) → Value

/-- Projection-time failures, using the spec's taxonomy for the Python
exceptions the code lets propagate: keyNotFound is KeyError from a missing
mapping key, indexOutOfRange is IndexError from sequence indexing, and
invalidProjection is the TypeError raised when a value that supports no
string subscription (a scalar, or a sequence given a string key) is
subscripted. -/
inductive PErr where
  | keyNotFound : String → PErr
  | indexOutOfRange : Nat → PErr
  | invalidProjection : PErr
deriving DecidableEq

/-- Python dict lookup on the association-list model (first match wins;
lists built by dictInsert never hold duplicate keys). -/
def dictGet : List (String × Value) → String → Option Value
  | [], _ => none
  | (k, v) :: rest, key => if k = key then some v else dictGet rest key

/-- Python dict assignment d[key] = v: overwrite in place, keeping the
original position of the key, or append a new entry at the end. -/
def dictInsert : List (String × Value) → String → Value → List (String × Value)
  | [], key, v => [(key, v)]
  | (k, w) :: rest, key, v =>
    if k = key then (key, v) :: rest else (k, w) :: dictInsert rest key v

/-- The ASCII whitespace characters removed by Python str.strip(). -/
def isPySpace (c : Char) : Bool :=
  c = ' ' || c = '\t' || c = '\n' || c = '\r' || c = '\x0b' || c = '\x0c'

/-- Python str.strip(). -/
def pyStrip (s : String) : String :=
  String.mk (((s.data.dropWhile isPySpace).reverse.dropWhile isPySpace).reverse)

/-- Python s.split on the dot separator, as in attr_list[0].split in
pluck_dict: the result is always non-empty and empty pieces are kept. -/
def pySplitDot : List Char → List String
  | [] => [String.mk []]
  | c :: t =>
    if c = '.' then String.mk [] :: pySplitDot t
    else
      match pySplitDot t with
      | [] => [String.mk [c]]
      | piece :: rest => String.mk (c :: piece.data) :: rest

/-- The characters the regex in pluck_list (line 245) tests: Python's
re lets the final anchor of the pattern also match just before a single
trailing newline, so that newline is discarded before the digit test. -/
def indexCore (s : String) : List Char :=
  match s.data.getLast? with
  | some c => if c = '\n' then s.data.dropLast else s.data
  | none => s.data

/-- Whether re.search of the all-digits pattern from pluck_list accepts
the selector: at least one character, all in the digit class. -/
def isIndexSelector (s : String) : Bool :=
  !(indexCore s).isEmpty && (indexCore s).all Char.isDigit

/-- Python int(s) for a selector accepted by isIndexSelector. -/
def toIndex (s : String) : Nat :=
  (indexCore s).foldl (fun n c => 10 * n + (c.toNat - 48)) 0

/-- Python subscription v[key] with a string key, as performed by
pluck_dict_dot: mapping lookup with KeyError on a missing key, and
TypeError (invalidProjection) on every non-mapping shape. -/
def getItem (v : Value) (key : String) : Except PErr Value :=
  match v with
  | .dict entries =>
    match dictGet entries key with
    | some x => .ok x
    | none => .error (.keyNotFound key)
  | _ => .error .invalidProjection

/-- RuoteCommand.pluck_dict_dot (cli.py lines 256-262): descend through
the dotted chain, stripping each segment before the lookup. -/
def pluck_dict_dot (target : Value) : List String → Except PErr Value
  | a :: b :: rest =>
    match getItem target (pyStrip a) with
    | .ok next => pluck_dict_dot next (b :: rest)
    | .error e => .error e
  | [a] => getItem target (pyStrip a)
  | [] => .ok target

mutual

/-- RuoteCommand.pluck (cli.py lines 235-242). -/
def pluck (v : Value) (attrs : List String) : Except PErr Value :=
  if attrs = [] then .ok v
  else
    match v with
    | .list l => pluck_list l attrs
    | x => pluck_dict x attrs
termination_by
  (sizeOf v, if attrs.length ≤ 1 then 1 else 2 * attrs.length + 4)
decreasing_by
  all_goals simp_wf
  · exact Prod.Lex.left _ _ (by simp_arith)
  · exact Prod.Lex.right _ (by split <;> omega)

/-- RuoteCommand.pluck_list (cli.py lines 244-248): a lone all-digits
selector indexes the sequence, anything else is broadcast over the
elements. -/
def pluck_list (l : List Value) (attrs : List String) : Except PErr Value :=
  match attrs with
  | [a] =>
    if isIndexSelector a then
      match l.get? (toIndex a) with
      | some x => .ok x
      | none => .error (.indexOutOfRange (toIndex a))
    else
      (pluck_list_items l [a]).map Value.list
  | _ => (pluck_list_items l attrs).map Value.list
termination_by (sizeOf l, 1)
decreasing_by
  all_goals exact Prod.Lex.right _ (by omega)

/-- The list comprehension of pluck_list line 248: pluck every element
with the same selector list, propagating the first failure. -/
def pluck_list_items (l : List Value) (attrs : List String) :
    Except PErr (List Value) :=
  match l with
  | [] => .ok []
  | x :: xs =>
    match pluck x attrs with
    | .ok y =>
      match pluck_list_items xs attrs with
      | .ok ys => .ok (y :: ys)
      | .error e => .error e
    | .error e => .error e
termination_by (sizeOf l, 0)
decreasing_by
  all_goals simp_wf
  all_goals exact Prod.Lex.left _ _ (by simp_arith)

/-- RuoteCommand.pluck_dict (cli.py lines 250-254): one selector descends
the dotted chain; several selectors build a new mapping; the empty
selector list falls off the Python function and yields None. -/
def pluck_dict (v : Value) (attrs : List String) : Except PErr Value :=
  match attrs with
  | [a] => pluck_dict_dot v (pySplitDot a.data)
  | [] => .ok .null
  | k1 :: k2 :: rest =>
    match pluck_dict_entries v (k1 :: k2 :: rest) [] with
    | .ok entries => .ok (.dict entries)
    | .error e => .error e
termination_by
  (sizeOf v, if attrs.length ≤ 1 then 0 else 2 * attrs.length + 3)
decreasing_by
  all_goals simp_wf
  all_goals exact Prod.Lex.right _ (by omega)

/-- The dict comprehension of pluck_dict line 254: for each selector in
order, skipping selectors equal to the empty string, bind the stripped
selector text to the single-selector pluck of the same value. -/
def pluck_dict_entries (v : Value) (keys : List String)
    (acc : List (String × Value)) : Except PErr (List (String × Value)) :=
  match keys with
  | [] => .ok acc
  | key :: rest =>
    if key = "" then pluck_dict_entries v rest acc
    else
      match pluck v [key] with
      | .ok val => pluck_dict_entries v rest (dictInsert acc (pyStrip key) val)
      | .error e => .error e
termination_by (sizeOf v, 2 * keys.length + 2)
decreasing_by
  all_goals simp_wf
  all_goals exact Prod.Lex.right _ (by simp_arith)

end

/-- The resource-navigator collaborator of RuoteCommand.get_target: a
position in the remote resource graph. get_child models a plain getattr
lookup and get_child_by_key models getattr followed by calling the
attribute with the key; none stands for the AttributeError the code
catches (capability absent, or an attribute-lookup failure inside). -/
inductive Navigator where
  | mk : (String → Option Navigator) → (String → String → Option Navigator) → Navigator

/-- Plain child lookup: getattr(target, name). -/
def Navigator.get_child : Navigator → String → Option Navigator
  | .mk f _, name => f name

/-- Keyed child lookup: getattr(target, name)(key). -/
def Navigator.get_child_by_key : Navigator → String → String → Option Navigator
  | .mk _ g, name, key => g name key

/-- One anchored attempt of the regex of get_target line 210 at the head
of the character list: a non-empty greedy run of non-colon characters,
then a colon, then a non-empty greedy run of any characters other than a
newline (Python's dot does not match a newline). Backtracking inside the
first group never helps, because the group would then have to stop at a
non-colon character, so the anchored match is exactly this shape. -/
def matchAt (l : List Char) : Option (List Char × List Char) :=
  match l.span (fun c => c ≠ ':') with
  | (r, rest) =>
    if r.isEmpty then none
    else
      match rest with
      | ':' :: rest2 =>
        let v := rest2.takeWhile (fun c => c ≠ '\n')
        if v.isEmpty then none else some (r, v)
      | _ => none

/-- re.search of the pattern of get_target line 210: try the anchored
match at every position from the left and keep the first success,
returning the two capture groups. -/
def reSearchCall : List Char → Option (List Char × List Char)
  | [] => none
  | c :: t =>
    match matchAt (c :: t) with
    | some g => some g
    | none => reSearchCall t

/-- The body of the loop of get_target (cli.py lines 209-217) for one
path token: when the regex matches, try the keyed lookup with the two
groups and fall back to a plain lookup with the whole original token on
an attribute-lookup failure; when it does not match, do the plain lookup
directly. none means the AttributeError reaches the outer handler. -/
def get_target_step (target : Navigator) (p : String) : Option Navigator :=
  match reSearchCall p.data with
  | some (n, v) =>
    match target.get_child_by_key (String.mk n) (String.mk v) with
    | some t => some t
    | none => target.get_child p
  | none => target.get_child p

/-- The outcome of get_target: either the resolved navigator, or the
terminal failure path of lines 218-220, which writes its fixed message to
the standard error stream and exits the process with the given status. -/
inductive ResolveOutcome where
  | ok : Navigator → ResolveOutcome
  | fail : String → Nat → ResolveOutcome

/-- RuoteCommand.get_target (cli.py lines 205-221): fold the path tokens
left to right from the root navigator; the first token whose step fails
aborts with the fixed "Unknown path" message and exit status 1. -/
def get_target (root : Navigator) : List String → ResolveOutcome
  | [] => .ok root
  | p :: rest =>
    match get_target_step root p with
    | some t => get_target t rest
    | none => .fail "Unknown path\n" 1

/-- Manually chaining the per-token child lookups left to right, used to
state the resolution claims: the spec's equivalent-child-lookup chain. -/
def chainResolve (root : Navigator) (tokens : List String) : Option Navigator :=
  tokens.foldlM (fun cur p => get_target_step cur p) root

/- Concrete navigators used as witnesses and counterexamples: a stub
resource graph in the sense of the spec's testable properties. -/

/-- A navigator with no children at all. -/
def leafNav : Navigator := .mk (fun _ => none) (fun _ _ => none)

/-- The plain child produced by stubNav for whole-token lookups; it has
no children of its own. -/
def plainNav : Navigator := .mk (fun _ => none) (fun _ _ => none)

/-- The keyed child produced by stubNav: it remembers the key it was
created from as its only child name, so children for different keys are
observably different navigators. -/
def keyChild (k : String) : Navigator :=
  .mk (fun n => if n = k then some leafNav else none) (fun _ _ => none)

/-- A stub navigator supporting keyed lookup on every name and plain
lookup on every token. -/
def stubNav : Navigator :=
  .mk (fun _ => some plainNav) (fun _ k => some (keyChild k))

/-- A two-level navigator graph: root -> "users" -> "me". -/
def usersNav : Navigator :=
  .mk (fun n => if n = "me" then some leafNav else none) (fun _ _ => none)

/-- Root of the two-level graph. -/
def rootNav : Navigator :=
  .mk (fun n => if n = "users" then some usersNav else none) (fun _ _ => none)

/- Helper lemmas about the projection engine. -/

/-- pluck on the empty selector list is the identity. -/
theorem pluck_nil (v : Value) : pluck v [] = .ok v := by
  rw [pluck.eq_def]; simp

/-- pluck dispatches a sequence with selectors to pluck_list. -/
theorem pluck_cons_list (l : List Value) (a : String) (t : List String) :
    pluck (Value.list l) (a :: t) = pluck_list l (a :: t) := by
  simp [pluck]

/-- pluck dispatches every non-sequence value with selectors to
pluck_dict, exactly as the isinstance test of line 239 does. -/
theorem pluck_cons_not_list (v : Value) (a : String) (t : List String)
    (h : ∀ l, v ≠ Value.list l) :
    pluck v (a :: t) = pluck_dict v (a :: t) := by
  cases v with
  | list l => exact absurd rfl (h l)
  | str s => rw [pluck.eq_def]; simp
  | int n => rw [pluck.eq_def]; simp
  | bool b => rw [pluck.eq_def]; simp
  | null => rw [pluck.eq_def]; simp
  | dict d => rw [pluck.eq_def]; simp

/-- pluck dispatches a mapping with selectors to pluck_dict. -/
theorem pluck_cons_dict (d : List (String × Value)) (a : String)
    (t : List String) :
    pluck (Value.dict d) (a :: t) = pluck_dict (Value.dict d) (a :: t) :=
  pluck_cons_not_list (Value.dict d) a t (fun _ h => by cases h)

/-- The element-wise comprehension is List.mapM of pluck. -/
theorem pluck_list_items_eq_mapM (l : List Value) (attrs : List String) :
    pluck_list_items l attrs = l.mapM (fun item => pluck item attrs) := by
  rw [← List.mapM'_eq_mapM]
  induction l with
  | nil =>
    simp [pluck_list_items, List.mapM']
    rfl
  | cons x xs ih =>
    simp only [pluck_list_items, ih, List.mapM'_cons]
    cases h : pluck x attrs with
    | ok y =>
      cases h2 : xs.mapM' (fun item => pluck item attrs) with
      | ok ys => rfl
      | error e => rfl
    | error e => rfl

/-- Skipping is literal: an empty-string selector appended to the
comprehension's input list is ignored wherever the accumulator stands. -/
theorem pluck_dict_entries_append_empty (v : Value) (keys : List String)
    (acc : List (String × Value)) :
    pluck_dict_entries v (keys ++ [""]) acc = pluck_dict_entries v keys acc := by
  induction keys generalizing acc with
  | nil => simp [pluck_dict_entries]
  | cons key rest ih =>
    by_cases hk : key = ""
    · simp only [List.cons_append, pluck_dict_entries, hk, if_pos rfl]
      exact ih acc
    · simp only [List.cons_append, pluck_dict_entries, if_neg hk]
      cases pluck v [key] with
      | ok val => exact ih _
      | error e => rfl

/-- A selector list in which every selector is non-empty is processed by
the dict comprehension as a left fold that binds the stripped selector to
the single-selector pluck of the same value, in order, last wins. -/
theorem pluck_dict_entries_eq_foldlM (v : Value) (keys : List String)
    (acc : List (String × Value)) (h : "" ∉ keys) :
    pluck_dict_entries v keys acc =
      keys.foldlM
        (fun a s => (pluck v [s]).map (fun val => dictInsert a (pyStrip s) val))
        acc := by
  induction keys generalizing acc with
  | nil =>
    simp only [pluck_dict_entries]
    rfl
  | cons key rest ih =>
    have hk : ¬key = "" := fun hkey => h (hkey ▸ List.mem_cons_self key rest)
    have hr : "" ∉ rest := fun hmem => h (List.mem_cons_of_mem key hmem)
    rw [pluck_dict_entries, if_neg hk, List.foldlM_cons]
    cases hp : pluck v [key] with
    | ok val => exact ih (dictInsert acc (pyStrip key) val) hr
    | error e => rfl

/-- The dotted-chain descent of pluck_dict_dot is the left fold of the
stripped-segment subscription, the spec's repeatedly-look-up loop. -/
theorem pluck_dict_dot_eq_foldlM (segs : List String) (v : Value) :
    pluck_dict_dot v segs =
      segs.foldlM (fun cur seg => getItem cur (pyStrip seg)) v := by
  induction segs generalizing v with
  | nil => rfl
  | cons a rest ih =>
    cases rest with
    | nil =>
      rw [pluck_dict_dot, List.foldlM_cons]
      cases getItem v (pyStrip a) with
      | ok next => rfl
      | error e => rfl
    | cons b t =>
      rw [pluck_dict_dot, List.foldlM_cons]
      cases getItem v (pyStrip a) with
      | ok next => exact ih next
      | error e => rfl

/-- Scalar shapes in the sense of the spec: neither a sequence nor a
mapping. -/
def isScalarValue : Value → Bool
  | .list _ => false
  | .dict _ => false
  | _ => true

/-- Subscripting a scalar raises the TypeError modelled as
invalidProjection, whatever the key. -/
theorem getItem_scalar (v : Value) (h : isScalarValue v = true) (key : String) :
    getItem v key = .error .invalidProjection := by
  cases v with
  | str s => rfl
  | int n => rfl
  | bool b => rfl
  | null => rfl
  | list l => rfl
  | dict d => exact absurd h (by simp [isScalarValue])

/-- Python str.split never returns an empty list. -/
theorem pySplitDot_ne_nil (l : List Char) : pySplitDot l ≠ [] := by
  cases l with
  | nil => simp [pySplitDot]
  | cons c t =>
    rw [pySplitDot]
    by_cases hc : c = '.'
    · simp [hc]
    · rw [if_neg hc]
      cases pySplitDot t with
      | nil => simp
      | cons piece rest => simp

/-- The dotted descent starting from a scalar fails at its very first
subscription. -/
theorem pluck_dict_dot_scalar (v : Value) (h : isScalarValue v = true)
    (segs : List String) (hs : segs ≠ []) :
    pluck_dict_dot v segs = .error .invalidProjection := by
  cases segs with
  | nil => exact absurd rfl hs
  | cons a rest =>
    cases rest with
    | nil => rw [pluck_dict_dot, getItem_scalar v h]
    | cons b t => rw [pluck_dict_dot, getItem_scalar v h]

/-- A single-selector pluck of a scalar fails with invalidProjection. -/
theorem pluck_single_scalar (v : Value) (h : isScalarValue v = true)
    (s : String) : pluck v [s] = .error .invalidProjection := by
  have hnl : ∀ l, v ≠ Value.list l := by
    intro l hl
    rw [hl] at h
    simp [isScalarValue] at h
  rw [pluck_cons_not_list v s [] hnl, pluck_dict,
    pluck_dict_dot_scalar v h _ (pySplitDot_ne_nil _)]

/-- Broadcasting the empty selector list over a sequence returns the
sequence unchanged, element by element. -/
theorem mapM_pluck_nil (l : List Value) :
    l.mapM (fun item => pluck item []) = .ok l := by
  rw [← List.mapM'_eq_mapM]
  induction l with
  | nil => rfl
  | cons x xs ih =>
    rw [List.mapM'_cons, pluck_nil, ih]
    rfl

/-- A successful Except-valued mapM preserves the length of the list. -/
theorem mapM_except_ok_length {α β : Type} (f : α → Except PErr β)
    (l : List α) (r : List β) (h : l.mapM f = .ok r) : r.length = l.length := by
  rw [← List.mapM'_eq_mapM] at h
  induction l generalizing r with
  | nil =>
    cases h
    rfl
  | cons x xs ih =>
    rw [List.mapM'_cons] at h
    cases hx : f x with
    | ok y =>
      rw [hx] at h
      cases hxs : xs.mapM' f with
      | ok ys =>
        rw [hxs] at h
        cases h
        simp [ih ys hxs]
      | error e =>
        rw [hxs] at h
        cases h
    | error e =>
      rw [hx] at h
      cases h

/-- The Response Projector's multi-selector contract written from the
spec's words (section 4.2): build a new mapping whose key is the trimmed
selector text, in selector order with the last duplicate winning, and
whose value is the single-selector projection of the whole value. -/
def specMultiProject (v : Value) (selectors : List String) : Except PErr Value :=
  (selectors.foldlM
    (fun acc s => (pluck v [s]).map (fun val => dictInsert acc (pyStrip s) val))
    []).map Value.dict

/-- C1: the spec promises that a lone "-1" selector indexes a sequence
from the end, returning its last element, and the module docstring says
negative numbers are allowed; but the digit-only selector regex of
pluck_list rejects "-1", so the selector is broadcast over the elements
and subscripting the scalar elements with the string key "-1" raises the
TypeError (invalidProjection) instead of returning "c". A lone "0" does
index, and an out-of-range non-negative index raises IndexOutOfRange, as
claimed. -/
theorem C1_negative_index_selector_errors :
    pluck (Value.list [Value.str "a", Value.str "b", Value.str "c"]) ["-1"] =
        .error .invalidProjection ∧
      pluck (Value.list [Value.str "a", Value.str "b", Value.str "c"]) ["0"] =
        .ok (Value.str "a") ∧
      pluck (Value.list [Value.str "a", Value.str "b", Value.str "c"]) ["5"] =
        .error (.indexOutOfRange 5) := by
  refine ⟨?_, ?_, ?_⟩
  · simp [pluck, pluck_list, pluck_list_items, pluck_dict, pluck_dict_dot,
      getItem, isIndexSelector, indexCore, pySplitDot, pyStrip, isPySpace,
      Except.map]
  · simp [pluck, pluck_list, isIndexSelector, indexCore, toIndex]
  · simp [pluck, pluck_list, isIndexSelector, indexCore, toIndex]

/-- C2, counterexample: an empty-string selector inside a multi-selector
list is skipped, but the result is not the same as dropping it from the
list: the two-selector list still takes the mapping-building branch, so
the projection stays wrapped in a one-key mapping instead of being
unwrapped; and a selector that is empty only after trimming is not
skipped at all but fails on the stripped-empty key. -/
theorem C2_empty_selector_not_equivalent :
    pluck (Value.dict [("id", Value.int 1)]) ["id", ""] =
        .ok (Value.dict [("id", Value.int 1)]) ∧
      pluck (Value.dict [("id", Value.int 1)]) ["id"] = .ok (Value.int 1) ∧
      pluck (Value.dict [("id", Value.int 1)]) ["id", " "] =
        .error (.keyNotFound "") := by
  refine ⟨?_, ?_, ?_⟩
  · simp [pluck, pluck_dict, pluck_dict_entries, pluck_dict_dot, getItem,
      dictGet, dictInsert, pySplitDot, pyStrip, isPySpace]
  · simp [pluck, pluck_dict, pluck_dict_dot, getItem, dictGet, pySplitDot,
      pyStrip, isPySpace]
  · simp [pluck, pluck_dict, pluck_dict_entries, pluck_dict_dot, getItem,
      dictGet, dictInsert, pySplitDot, pyStrip, isPySpace]

/-- C2, amended: inside a selector list that keeps the mapping-building
branch (two or more selectors), a selector that is exactly the empty
string is skipped and leaves the projection unchanged. -/
theorem C2_append_empty_selector_neutral (d : List (String × Value))
    (ss : List String) (h : 2 ≤ ss.length) :
    pluck (Value.dict d) (ss ++ [""]) = pluck (Value.dict d) ss := by
  cases ss with
  | nil => simp at h
  | cons k1 t1 =>
    cases t1 with
    | nil => simp at h
    | cons k2 t2 =>
      rw [List.cons_append, List.cons_append, pluck_cons_dict, pluck_cons_dict]
      simp only [pluck_dict]
      have he := pluck_dict_entries_append_empty (Value.dict d) (k1 :: k2 :: t2) []
      simp only [List.cons_append] at he
      rw [he]

/-- C2, witness for the amended statement at the concrete input of the
claim's shape. -/
theorem C2_append_empty_selector_neutral_witness :
    2 ≤ (["id", "name"] : List String).length ∧
      pluck (Value.dict [("id", Value.int 1), ("name", Value.str "q")])
          (["id", "name"] ++ [""]) =
        pluck (Value.dict [("id", Value.int 1), ("name", Value.str "q")])
          ["id", "name"] :=
  ⟨by decide,
    C2_append_empty_selector_neutral
      [("id", Value.int 1), ("name", Value.str "q")] ["id", "name"] (by decide)⟩

/-- C6: for a mapping and a selector list with more than one element
(and no empty-string selector, the case the skip rule governs), pluck
builds a new mapping whose keys are the trimmed selector texts in
selector order, each value the single-selector projection of the whole
value, duplicates overwritten last-wins in place; and the companion
single-selector case returns the value unwrapped, as in the claim's
example. -/
theorem C6_multi_selector_mapping :
    (∀ (d : List (String × Value)) (ss : List String), 1 < ss.length →
      "" ∉ ss → pluck (Value.dict d) ss = specMultiProject (Value.dict d) ss) ∧
    pluck (Value.dict [("id", Value.int 1), ("name", Value.str "q")]) ["id"] =
      .ok (Value.int 1) := by
  constructor
  · intro d ss h1 h2
    cases ss with
    | nil => simp at h1
    | cons k1 t1 =>
      cases t1 with
      | nil => simp at h1
      | cons k2 t2 =>
        rw [pluck_cons_dict]
        simp only [pluck_dict, specMultiProject]
        rw [pluck_dict_entries_eq_foldlM (Value.dict d) (k1 :: k2 :: t2) [] h2]
        cases ((k1 :: k2 :: t2).foldlM
            (fun a s =>
              (pluck (Value.dict d) [s]).map
                (fun val => dictInsert a (pyStrip s) val)) []) with
        | ok entries => rfl
        | error e => rfl
  · simp [pluck, pluck_dict, pluck_dict_dot, getItem, dictGet, pySplitDot,
      pyStrip, isPySpace]

/-- C6, witness: the claim's example evaluated through the theorem, with
the keys in selector order. -/
theorem C6_multi_selector_mapping_witness :
    pluck (Value.dict [("id", Value.int 1), ("name", Value.str "q")])
        ["id", "name"] =
      .ok (Value.dict [("id", Value.int 1), ("name", Value.str "q")]) := by
  have h := C6_multi_selector_mapping.1
    [("id", Value.int 1), ("name", Value.str "q")] ["id", "name"]
    (by decide) (by decide)
  rw [h]
  simp only [specMultiProject, List.foldlM_cons, List.foldlM_nil]
  simp [pluck, pluck_dict, pluck_dict_dot, getItem, dictGet, dictInsert,
    pySplitDot, pyStrip, isPySpace, Except.map]
  rfl

/-- C7: a single selector against a mapping is split on dots and the
chain is descended key by key, each segment trimmed before its lookup,
returning the final value; the concrete conjuncts check the claim's
example and that a missing intermediate segment fails with KeyNotFound
naming that segment. -/
theorem C7_dotted_chain_descent :
    (∀ (d : List (String × Value)) (s : String),
      pluck (Value.dict d) [s] =
        (pySplitDot s.data).foldlM (fun cur seg => getItem cur (pyStrip seg))
          (Value.dict d)) ∧
    pluck
        (Value.dict
          [("a", Value.dict [("b", Value.dict [("c", Value.int 5)])])])
        ["a.b.c"] = .ok (Value.int 5) ∧
    pluck (Value.dict [("a", Value.dict [])]) ["a.b.c"] =
      .error (.keyNotFound "b") := by
  refine ⟨?_, ?_, ?_⟩
  · intro d s
    rw [pluck_cons_dict]
    simp only [pluck_dict]
    exact pluck_dict_dot_eq_foldlM (pySplitDot s.data) (Value.dict d)
  · simp [pluck, pluck_dict, pluck_dict_dot, getItem, dictGet, pySplitDot,
      pyStrip, isPySpace]
  · simp [pluck, pluck_dict, pluck_dict_dot, getItem, dictGet, pySplitDot,
      pyStrip, isPySpace]

/-- C8: outside the lone-digit-selector case, a sequence is projected by
broadcasting the same selector list over every element independently,
and a successful broadcast has exactly the length of the input. -/
theorem C8_sequence_broadcast (l : List Value) (ss : List String)
    (h : ∀ s, ss = [s] → isIndexSelector s = false) :
    pluck (Value.list l) ss =
        (l.mapM (fun item => pluck item ss)).map Value.list ∧
      ∀ l2, pluck (Value.list l) ss = .ok (Value.list l2) →
        l2.length = l.length := by
  have main : pluck (Value.list l) ss =
      (l.mapM (fun item => pluck item ss)).map Value.list := by
    cases ss with
    | nil =>
      rw [pluck_nil, mapM_pluck_nil]
      rfl
    | cons a t =>
      rw [pluck_cons_list]
      cases t with
      | nil =>
        simp only [pluck_list]
        rw [h a rfl, pluck_list_items_eq_mapM]
        simp
      | cons b t2 =>
        simp only [pluck_list]
        rw [pluck_list_items_eq_mapM]
  refine ⟨main, ?_⟩
  intro l2 hok
  rw [main] at hok
  cases hm : l.mapM (fun item => pluck item ss) with
  | ok r =>
    rw [hm] at hok
    simp only [Except.map] at hok
    cases hok
    exact mapM_except_ok_length _ l l2 hm
  | error e =>
    rw [hm] at hok
    simp [Except.map] at hok

/-- C8, witness: the claim's example, through the theorem. -/
theorem C8_sequence_broadcast_witness :
    pluck
        (Value.list
          [Value.dict [("id", Value.int 1)], Value.dict [("id", Value.int 2)]])
        ["id"] =
      .ok (Value.list [Value.int 1, Value.int 2]) := by
  have h := (C8_sequence_broadcast
    [Value.dict [("id", Value.int 1)], Value.dict [("id", Value.int 2)]]
    ["id"]
    (by intro s hs; injection hs with h1 _; subst h1; decide)).1
  rw [h, ← List.mapM'_eq_mapM]
  simp only [List.mapM'_cons, List.mapM'_nil]
  simp [pluck, pluck_dict, pluck_dict_dot, getItem, dictGet, pySplitDot,
    pyStrip, isPySpace, Except.map]
  rfl

/-- The dict comprehension over a scalar fails at its first non-skipped
selector. -/
theorem pluck_dict_entries_scalar (v : Value) (hv : isScalarValue v = true)
    (keys : List String) (acc : List (String × Value))
    (h : ∃ s ∈ keys, s ≠ "") :
    pluck_dict_entries v keys acc = .error .invalidProjection := by
  induction keys generalizing acc with
  | nil =>
    obtain ⟨s, hmem, _⟩ := h
    cases hmem
  | cons key rest ih =>
    by_cases hk : key = ""
    · have hrest : ∃ s ∈ rest, s ≠ "" := by
        obtain ⟨s, hmem, hne⟩ := h
        cases hmem with
        | head => exact absurd hk (hk ▸ hne)
        | tail _ hm => exact ⟨s, hm, hne⟩
      rw [pluck_dict_entries, if_pos hk]
      exact ih acc hrest
    · rw [pluck_dict_entries, if_neg hk, pluck_single_scalar v hv key]

/-- C9, counterexample: projecting a scalar with the non-empty selector
list consisting of two empty strings does not fail at all: the
mapping-building branch skips both selectors and returns an empty
mapping. -/
theorem C9_scalar_all_empty_selectors_succeed :
    pluck (Value.int 5) ["", ""] = .ok (Value.dict []) := by
  rw [pluck_cons_not_list (Value.int 5) "" [""] (fun _ h => by cases h)]
  simp [pluck_dict, pluck_dict_entries]

/-- C9, amended: projecting a scalar with a non-empty selector list
fails with the TypeError surfaced as InvalidProjection, except in the
vacuous case where the list has several selectors and every one of them
is the empty string (then an empty mapping is returned, see the
counterexample). -/
theorem C9_scalar_projection_fails (v : Value) (hv : isScalarValue v = true)
    (ss : List String) (h : ss.length = 1 ∨ ∃ s ∈ ss, s ≠ "") :
    pluck v ss = .error .invalidProjection := by
  have hnl : ∀ l, v ≠ Value.list l := by
    intro l hl
    subst hl
    simp [isScalarValue] at hv
  cases ss with
  | nil =>
    rcases h with h1 | ⟨s, hmem, _⟩
    · simp at h1
    · cases hmem
  | cons a t =>
    rw [pluck_cons_not_list v a t hnl]
    cases t with
    | nil =>
      simp only [pluck_dict]
      exact pluck_dict_dot_scalar v hv _ (pySplitDot_ne_nil _)
    | cons b t2 =>
      have hex : ∃ s ∈ a :: b :: t2, s ≠ "" := by
        rcases h with h1 | hex
        · simp at h1
        · exact hex
      rw [pluck_dict]
      rw [pluck_dict_entries_scalar v hv (a :: b :: t2) [] hex]

/-- C9, witness: a scalar projected with one ordinary selector fails
with InvalidProjection, through the theorem. -/
theorem C9_scalar_projection_fails_witness :
    pluck (Value.int 5) ["x"] = .error .invalidProjection :=
  C9_scalar_projection_fails (Value.int 5) rfl ["x"] (Or.inl rfl)

/- Helper lemmas about the path resolver. -/

/-- Anchored regex attempt on a token of the shape run-colon-rest: the
greedy non-colon group takes exactly the run and the greedy dot group
takes exactly a newline-free remainder. -/
theorem matchAt_shape (nm vl : List Char) (hn : nm ≠ [])
    (hnc : ∀ c ∈ nm, c ≠ ':') (hv : vl ≠ [])
    (hvn : ∀ c ∈ vl, c ≠ '\n') :
    matchAt (nm ++ ':' :: vl) = some (nm, vl) := by
  have htake : (nm ++ ':' :: vl).takeWhile (fun c => c ≠ ':') = nm := by
    rw [List.takeWhile_append_of_pos (by simpa using hnc),
      List.takeWhile_cons_of_neg (by simp)]
    simp
  have hdrop : (nm ++ ':' :: vl).dropWhile (fun c => c ≠ ':') = ':' :: vl := by
    rw [List.dropWhile_append_of_pos (by simpa using hnc),
      List.dropWhile_cons_of_neg (by simp)]
  have hvtake : vl.takeWhile (fun c => c ≠ '\n') = vl :=
    List.takeWhile_eq_self_iff.mpr (by simpa using hvn)
  have hne : nm.isEmpty = false := by
    cases nm with
    | nil => exact absurd rfl hn
    | cons a b => rfl
  have hve : vl.isEmpty = false := by
    cases vl with
    | nil => exact absurd rfl hv
    | cons a b => rfl
  rw [matchAt, List.span_eq_take_drop, htake, hdrop]
  simp only [hne, hve, hvtake]
  simp

/-- A successful anchored attempt is what the search returns. -/
theorem reSearchCall_of_matchAt (c : Char) (t : List Char)
    (g : List Char × List Char) (h : matchAt (c :: t) = some g) :
    reSearchCall (c :: t) = some g := by
  rw [reSearchCall, h]

/-- The anchored attempt fails on a leading colon, so the search skips
it. -/
theorem reSearchCall_cons_colon (t : List Char) :
    reSearchCall (':' :: t) = reSearchCall t := by
  rw [reSearchCall]
  have : matchAt (':' :: t) = none := by
    rw [matchAt, List.span_eq_take_drop, List.takeWhile_cons_of_neg (by simp)]
    simp
  rw [this]

/-- The search on a name-colon-value token with a non-empty colon-free
name and a non-empty newline-free value returns exactly the first-colon
split. -/
theorem reSearchCall_shape (nm vl : List Char) (hn : nm ≠ [])
    (hnc : ∀ c ∈ nm, c ≠ ':') (hv : vl ≠ [])
    (hvn : ∀ c ∈ vl, c ≠ '\n') :
    reSearchCall (nm ++ ':' :: vl) = some (nm, vl) := by
  cases nm with
  | nil => exact absurd rfl hn
  | cons c t =>
    exact reSearchCall_of_matchAt c (t ++ ':' :: vl) (c :: t, vl)
      (matchAt_shape (c :: t) vl hn hnc hv hvn)

/-- The search finds nothing in a token made of a colon-free run closed
by a final colon. -/
theorem reSearchCall_run_trailing_colon (rn : List Char)
    (hnc : ∀ c ∈ rn, c ≠ ':') :
    reSearchCall (rn ++ [':']) = none := by
  induction rn with
  | nil =>
    rw [List.nil_append, reSearchCall]
    have : matchAt [':'] = none := by
      rw [matchAt, List.span_eq_take_drop, List.takeWhile_cons_of_neg (by simp)]
      simp
    rw [this]
    rfl
  | cons c t ih =>
    have hct : ∀ x ∈ t, x ≠ ':' := fun x hx => hnc x (List.mem_cons_of_mem c hx)
    rw [List.cons_append, reSearchCall]
    have : matchAt (c :: (t ++ [':'])) = none := by
      rw [matchAt, List.span_eq_take_drop]
      have htake : (c :: (t ++ [':'])).takeWhile (fun x => x ≠ ':') = c :: t := by
        rw [show c :: (t ++ [':']) = (c :: t) ++ [':'] by simp,
          List.takeWhile_append_of_pos (by simpa using hnc),
          List.takeWhile_cons_of_neg (by simp)]
        simp
      have hdrop : (c :: (t ++ [':'])).dropWhile (fun x => x ≠ ':') = [':'] := by
        rw [show c :: (t ++ [':']) = (c :: t) ++ [':'] by simp,
          List.dropWhile_append_of_pos (by simpa using hnc),
          List.dropWhile_cons_of_neg (by simp)]
      rw [htake, hdrop]
      simp
    rw [this, ih hct]

/-- The search finds nothing in a token made only of colons. -/
theorem reSearchCall_all_colons (l : List Char) (h : ∀ c ∈ l, c = ':') :
    reSearchCall l = none := by
  induction l with
  | nil => rfl
  | cons c t ih =>
    have hc : c = ':' := h c (List.mem_cons_self c t)
    subst hc
    rw [reSearchCall_cons_colon]
    exact ih (fun x hx => h x (List.mem_cons_of_mem _ hx))

/-- The character list of a name-colon-value token. -/
theorem token_data (name value : String) :
    (name ++ ":" ++ value).data = name.data ++ ':' :: value.data := by
  rw [String.data_append (name ++ ":") value, String.data_append name ":"]
  simp

/-- C3, counterexample: for the token "a:\nb", of the form name:value
with name "a" and value "\nb" under the first-colon split, the claim
requires the keyed lookup get_child_by_key("a", "\nb") to be attempted
first; the stub navigator supports it and would return the keyed child;
but the regex's dot never matches a newline, so the code never attempts
the keyed lookup and plainly resolves the whole token instead, reaching
a different navigator. -/
theorem C3_newline_value_not_keyed :
    get_target_step stubNav "a:\nb" = some plainNav ∧
      stubNav.get_child_by_key "a" "\nb" = some (keyChild "\nb") ∧
      plainNav ≠ keyChild "\nb" := by
  refine ⟨rfl, rfl, ?_⟩
  intro h
  have h2 := congrArg (fun nav => nav.get_child "\nb") h
  simp [plainNav, keyChild, Navigator.get_child, leafNav] at h2

/-- C3, amended: for a token name:value whose name is non-empty and
colon-free and whose value is non-empty and newline-free, resolution
first attempts the keyed child lookup with exactly these two parts and,
when that capability is absent or fails, falls back to a plain child
lookup with the entire original token. -/
theorem C3_keyed_token_resolution (nav : Navigator) (name value : String)
    (hn : name ≠ "") (hnc : ∀ c ∈ name.data, c ≠ ':')
    (hv : value ≠ "") (hvn : ∀ c ∈ value.data, c ≠ '\n') :
    (∀ t, nav.get_child_by_key name value = some t →
      get_target_step nav (name ++ ":" ++ value) = some t) ∧
    (nav.get_child_by_key name value = none →
      get_target_step nav (name ++ ":" ++ value) =
        nav.get_child (name ++ ":" ++ value)) := by
  have hdn : name.data ≠ [] := fun hd => hn (by
    cases name with
    | mk l => simp at hd; simp [hd])
  have hdv : value.data ≠ [] := fun hd => hv (by
    cases value with
    | mk l => simp at hd; simp [hd])
  have hsearch : reSearchCall ((name ++ ":" ++ value)).data =
      some (name.data, value.data) := by
    rw [token_data name value]
    exact reSearchCall_shape name.data value.data hdn hnc hdv hvn
  constructor
  · intro t ht
    rw [get_target_step, hsearch]
    show (match nav.get_child_by_key name value with
      | some u => some u
      | none => nav.get_child (name ++ ":" ++ value)) = some t
    rw [ht]
  · intro hnone
    rw [get_target_step, hsearch]
    show (match nav.get_child_by_key name value with
      | some u => some u
      | none => nav.get_child (name ++ ":" ++ value)) =
      nav.get_child (name ++ ":" ++ value)
    rw [hnone]

/-- C3, witness for the amended statement: the spec's stub-navigator
scenario, the keyed path taken for "id:343". -/
theorem C3_keyed_token_resolution_witness :
    get_target_step stubNav ("id" ++ ":" ++ "343") = some (keyChild "343") :=
  (C3_keyed_token_resolution stubNav "id" "343" (by decide) (by decide)
    (by decide) (by decide)).1 (keyChild "343") rfl

/-- C10, counterexample: the token "a:b:" ends in a colon, yet the regex
matches it with name "a" and value "b:", so the keyed lookup is attempted
(and here succeeds), refuting the claim that every token ending in a
colon is resolved by a plain lookup of the whole token. -/
theorem C10_trailing_colon_still_keyed :
    get_target_step stubNav "a:b:" = some (keyChild "b:") ∧
      stubNav.get_child "a:b:" = some plainNav ∧
      keyChild "b:" ≠ plainNav := by
  refine ⟨rfl, rfl, ?_⟩
  intro h
  have h2 := congrArg (fun nav => nav.get_child "b:") h
  simp [plainNav, keyChild, Navigator.get_child, leafNav] at h2

/-- C10, amended: keyed lookup is attempted exactly when the regex finds
a non-colon run immediately followed by a colon and one further
non-newline character. In particular a token that is a colon-free run
closed by a single final colon, or a token made only of colons, is
resolved by a plain child lookup with the entire token; and for a token
with one leading colon the split skips that colon, resolving the keyed
lookup on the parts after it. But a token such as "a:b:" still attempts
a keyed lookup with value "b:", see the counterexample. -/
theorem C10_colon_token_cases :
    (∀ (nav : Navigator) (run : String), run ≠ "" →
      (∀ c ∈ run.data, c ≠ ':') →
      get_target_step nav (run ++ ":") = nav.get_child (run ++ ":")) ∧
    (∀ (nav : Navigator) (t : String), (∀ c ∈ t.data, c = ':') →
      get_target_step nav t = nav.get_child t) ∧
    (∀ (nav : Navigator) (name value : String), name ≠ "" →
      (∀ c ∈ name.data, c ≠ ':') → value ≠ "" →
      (∀ c ∈ value.data, c ≠ '\n') →
      ∀ t, nav.get_child_by_key name value = some t →
        get_target_step nav (":" ++ (name ++ ":" ++ value)) = some t) := by
  refine ⟨?_, ?_, ?_⟩
  · intro nav run hr hrc
    have hsearch : reSearchCall (run ++ ":").data = none := by
      rw [String.data_append run ":"]
      exact reSearchCall_run_trailing_colon run.data hrc
    rw [get_target_step, hsearch]
  · intro nav t ht
    have hsearch : reSearchCall t.data = none := reSearchCall_all_colons t.data ht
    rw [get_target_step, hsearch]
  · intro nav name value hn hnc hv hvn t ht
    have hdn : name.data ≠ [] := fun hd => hn (by
      cases name with
      | mk l => simp at hd; simp [hd])
    have hdv : value.data ≠ [] := fun hd => hv (by
      cases value with
      | mk l => simp at hd; simp [hd])
    have hsearch : reSearchCall (":" ++ (name ++ ":" ++ value)).data =
        some (name.data, value.data) := by
      rw [String.data_append ":" (name ++ ":" ++ value), token_data name value]
      show reSearchCall (':' :: (name.data ++ ':' :: value.data)) = _
      rw [reSearchCall_cons_colon]
      exact reSearchCall_shape name.data value.data hdn hnc hdv hvn
    rw [get_target_step, hsearch]
    show (match nav.get_child_by_key name value with
      | some u => some u
      | none => nav.get_child (":" ++ (name ++ ":" ++ value))) = some t
    rw [ht]

/-- C10, witness for the amended statement: the token "files:" gets a
plain lookup of the whole token, through the theorem. -/
theorem C10_colon_token_cases_witness :
    get_target_step stubNav ("files" ++ ":") = stubNav.get_child ("files" ++ ":") :=
  C10_colon_token_cases.1 stubNav "files" (by decide) (by decide)

/-- C4, counterexample: two resolutions that fail at different offending
tokens with different consumed prefixes (["users"] then "aa", versus []
then "bb") produce the identical terminal outcome, the constant message
"Unknown path" on the error stream and exit status 1; the terminal error
therefore identifies neither the offending token nor the consumed
tokens. -/
theorem C4_error_does_not_identify_token :
    get_target rootNav ["users", "aa"] = .fail "Unknown path\n" 1 ∧
      get_target rootNav ["bb"] = .fail "Unknown path\n" 1 :=
  ⟨rfl, rfl⟩

/-- C4, amended: resolution is strictly left-to-right and fail-fast: as
soon as one token's step fails, the outcome is the terminal failure with
the fixed message "Unknown path" on the user-facing error stream and
exit status 1, whatever tokens follow, and no navigator is produced. -/
theorem C4_fail_fast (root : Navigator) (front : List String) (tok : String)
    (rest : List String) (nav : Navigator)
    (hfront : chainResolve root front = some nav)
    (hstep : get_target_step nav tok = none) :
    get_target root (front ++ tok :: rest) = .fail "Unknown path\n" 1 := by
  induction front generalizing root with
  | nil =>
    have hroot : root = nav := by
      have : some root = some nav := hfront
      injection this
    subst hroot
    rw [List.nil_append, get_target, hstep]
  | cons f fr ih =>
    cases hs : get_target_step root f with
    | some t =>
      have hfr : chainResolve t fr = some nav := by
        unfold chainResolve at hfront ⊢
        rw [List.foldlM_cons, hs] at hfront
        exact hfront
      rw [List.cons_append, get_target, hs]
      exact ih t hfr
    | none =>
      exfalso
      unfold chainResolve at hfront
      rw [List.foldlM_cons, hs] at hfront
      cases hfront

/-- C4, witness for the amended statement: a failure after one resolved
token, with a further token pending that is never examined. -/
theorem C4_fail_fast_witness :
    get_target rootNav (["users"] ++ "zz" :: ["later"]) =
      .fail "Unknown path\n" 1 :=
  C4_fail_fast rootNav ["users"] "zz" ["later"] usersNav rfl rfl

/-- C5: resolving an empty token sequence returns the root navigator
unchanged, and whenever manually chaining the per-token child lookups
left to right succeeds, get_target returns exactly the navigator that
chain reaches, the child reached by the last token. -/
theorem C5_resolve_chain :
    (∀ root : Navigator, get_target root [] = .ok root) ∧
    (∀ (root : Navigator) (tokens : List String) (nav : Navigator),
      chainResolve root tokens = some nav → get_target root tokens = .ok nav) := by
  constructor
  · intro root
    rfl
  · intro root tokens nav h
    induction tokens generalizing root with
    | nil =>
      have : some root = some nav := h
      injection this with h2
      rw [h2]
      rfl
    | cons p rest ih =>
      cases hs : get_target_step root p with
      | some t =>
        have hr : chainResolve t rest = some nav := by
          unfold chainResolve at h ⊢
          rw [List.foldlM_cons, hs] at h
          exact h
        rw [get_target, hs]
        exact ih t hr
      | none =>
        exfalso
        unfold chainResolve at h
        rw [List.foldlM_cons, hs] at h
        cases h

/-- C5, witness: the two-level graph resolved through the theorem. -/
theorem C5_resolve_chain_witness :
    get_target rootNav ["users", "me"] = .ok leafNav :=
  C5_resolve_chain.2 rootNav ["users", "me"] leafNav rfl
